import Mathlib

/-!
Verification of the boostable-bosses fetch/cache/extract pipeline of the
tibia-crawler repository (package `parsers/boostablebosses`, together with the
error values of package `parsers` and the data types of package `tibia`).

Modelling conventions:
* Go strings are embedded as `List Char` (all markers involved are ASCII, so
  Go's byte indices and the character indices used here coincide on the inputs
  considered).
* `strings.Index` is embedded by `goIndex`, returning `-1 : Int` when the
  substring is absent, exactly as in Go.
* A Go slice expression `s[i:j]` is embedded by `goSlice`; when the bounds are
  invalid (`i < 0`, `i > j` or `j > len s`) Go aborts with a run-time panic,
  which is modelled as the distinguished abnormal outcome `GoErr.sliceBounds`.
  A Go panic does not return an error value to the caller; it is kept in the
  same `Except` carrier only so that every evaluation has a value, and it is
  never conflated with a returned `error` in the theorems below.
* Wall-clock instants are embedded as seconds elapsed since Go's
  zero-parse reference date 0000-01-01 00:00:00 UTC (the date produced by
  `time.Parse("15:04", ...)`), so `Time.After`/`Time.Before` become `<` on
  `Nat`.
* The network is embedded as an oracle `att : Nat → Except GoErr Str` giving
  the outcome of the i-th call to `makeRequest` (transport failures, context
  cancellation and status classification all surface as `GoErr` values).
  The response-classification part of `makeRequest` (lines 177-211 of
  boostablebosses.go) is embedded separately over an explicit HTTP response
  value.
-/

namespace TibiaCrawler

/-- Go strings, embedded as lists of characters. -/
abbrev Str := List Char

/-- Outcomes of the Go functions: the sentinel errors of package `parsers`,
structural extraction errors (`fmt.Errorf` with a message), the wrap applied by
`fetch` to extraction errors, and the abnormal outcome of a slice-bounds
run-time panic (which in Go aborts instead of returning). -/
inductive GoErr where
  /-- Run-time panic: Go slice expression with out-of-range bounds. -/
  | sliceBounds
  /-- A `fmt.Errorf` structural error with the given message. -/
  | structural (msg : String)
  /-- `parsers.ErrCtxDone`. -/
  | ctxDone
  /-- `parsers.ErrRateLimited` (wrapped by `makeRequest` on HTTP 403). -/
  | rateLimited
  /-- `parsers.ErrMaintenance` (returned unwrapped on a 302 to the maintenance host). -/
  | maintenance
  /-- The error returned when `res.Location()` fails on a 302 response. -/
  | locationFailed
  /-- `parsers.ErrUnknownStatusCode`, wrapped with the offending status code. -/
  | unknownStatus (code : Nat)
  /-- A transport-level failure of `HTTPClient.Do` (DNS, connection, timeout). -/
  | transport
  /-- The wrap `boostable bosses: failed to parse body: %w` applied by `fetch`. -/
  | parseWrap (e : GoErr)
deriving DecidableEq, Repr

/-- Decidable equality on `Except`, for evaluating the embedded functions on
concrete inputs. -/
instance {ε α : Type} [DecidableEq ε] [DecidableEq α] : DecidableEq (Except ε α)
  | .error e, .error f => decidable_of_iff (e = f) (by simp)
  | .error _, .ok _ => isFalse (fun h => by cases h)
  | .ok _, .error _ => isFalse (fun h => by cases h)
  | .ok a, .ok b => decidable_of_iff (a = b) (by simp)

/-- Embedding of Go `strings.Index(s, sub)` (auxiliary, carrying the current
index): the index of the first occurrence of `sub` in `s`, or `-1`. -/
def goIndexAux (sub : Str) : Str → Nat → Int
  | [], i => if sub = [] then (i : Int) else -1
  | c :: rest, i =>
    if sub.isPrefixOf (c :: rest) then (i : Int) else goIndexAux sub rest (i + 1)

/-- Embedding of Go `strings.Index(s, sub)`. -/
def goIndex (s sub : Str) : Int := goIndexAux sub s 0

/-- Embedding of Go `strings.Contains(s, sub)` (defined as `Index >= 0`). -/
def goContains (s sub : Str) : Bool := goIndex s sub != -1

/-- Embedding of the Go slice expression `s[i:j]`: out-of-range bounds are a
run-time panic, modelled as the abnormal `sliceBounds` outcome. -/
def goSlice (s : Str) (i j : Int) : Except GoErr Str :=
  if 0 ≤ i ∧ i ≤ j ∧ j ≤ (s.length : Int) then
    .ok ((s.drop i.toNat).take (j - i).toNat)
  else .error .sliceBounds

/-- Embedding of the Go slice expression `s[i:]`. -/
def goSliceFrom (s : Str) (i : Int) : Except GoErr Str :=
  goSlice s i (s.length : Int)

/-! ### Data model (package `tibia`) -/

/-- `tibia.BoostableBoss`: name, image URL and the `featured` flag
(Go field `IsBoosted`, JSON key `featured`). -/
structure BoostableBoss where
  Name : Str
  ImageURL : Str
  IsBoosted : Bool
deriving DecidableEq, Repr

/-- The zero value of `tibia.BoostableBoss`. -/
def zeroBoss : BoostableBoss := { Name := [], ImageURL := [], IsBoosted := false }

/-- `tibia.BoostableBosses`: the featured (`Boosted`) boss and the full list. -/
structure BoostableBosses where
  Boosted : BoostableBoss
  Bosses : List BoostableBoss
deriving DecidableEq, Repr

/-- The zero value of `tibia.BoostableBosses` (the cache before any
successful fetch). -/
def zeroBosses : BoostableBosses := { Boosted := zeroBoss, Bosses := [] }

/-- `tibia.AmountOfBoostableBosses` (used by the source only as a slice
capacity hint). -/
def AmountOfBoostableBosses : Nat := 91

/-! ### Marker constants of boostablebosses.go -/

/-- Marker `<div class="main-content Content">`. -/
def startIndexer : Str := "<div class=\"main-content Content\">".toList

/-- Marker `<div id="Footer" class="main-footer">`. -/
def endIndexer : Str := "<div id=\"Footer\" class=\"main-footer\">".toList

/-- Marker for the featured line (the string contains an apostrophe,
written `\x27`). -/
def todayChecker : Str := "Today\x27s boosted boss: ".toList

/-- Marker `<div class="CaptionContainer">` identifying the listing line. -/
def bossesChecker : Str := "<div class=\"CaptionContainer\">".toList

/-- Marker `title="` ++ todayChecker. -/
def todayBossIndexer : Str := "title=\"".toList ++ todayChecker

/-- Marker `" src="`. -/
def endTodayBossIndexer : Str := "\" src=\"".toList

/-- Image-host prefix of the featured boss image. -/
def todayBossImgIndexer : Str :=
  "https://static.tibia.com/images/global/header/monsters/".toList

/-- Marker `" onClick="`. -/
def endTodayBossImgIndexer : Str := "\" onClick=\"".toList

/-- Image-host prefix of the listed boss images. -/
def bossesImgIndexer : Str := "https://static.tibia.com/images/library/".toList

/-- Closing double quote ending a listed image URL. -/
def endBossesImgIndexer : Str := "\"".toList

/-- Marker `border=0 /> <div>` preceding a listed boss name. -/
def bossesNameIndexer : Str := "border=0 /> <div>".toList

/-- Closing tag `</div>` ending a listed boss name. -/
def endBossesNameIndexer : Str := "</div>".toList

/-! ### Markup extractor -/

/-- Embedding of `(*Parser).getLines`: locate the main-content and footer
markers, slice the region between them, split it into lines. Note that when
the footer marker is absent, `endIdx` is `-1 + startIdx`, which escapes the
`== -1` test whenever `startIdx > 0` and then makes `data[startIdx:endIdx]` a
panicking slice. -/
def getLines (data : Str) : Except GoErr (List Str) :=
  let startIdx := goIndex data startIndexer
  if startIdx = -1 then
    .error (.structural "boostable bosses: main content not found")
  else
    match goSliceFrom data startIdx with
    | .error e => .error e
    | .ok tail =>
      let endIdx := goIndex tail endIndexer + startIdx
      if endIdx = -1 then
        .error (.structural "boostable bosses: end of content not found")
      else
        match goSlice data startIdx endIdx with
        | .error e => .error e
        | .ok body =>
          let lines := body.splitOn '\n'
          if lines.length = 0 then
            .error (.structural "boostable bosses: no lines found")
          else .ok lines

/-- Embedding of `(*Parser).readTodaysLine`. The boss value starts with
`IsBoosted: true`; every per-field index adds the marker length before the
`== -1` comparison, exactly as in the source. -/
def readTodaysLine (line : Str) : Except GoErr BoostableBoss :=
  let todayBossIdx := goIndex line todayBossIndexer + (todayBossIndexer.length : Int)
  if todayBossIdx = -1 then
    .error (.structural "boostable bosses: today boss idx not found")
  else
    match goSliceFrom line todayBossIdx with
    | .error e => .error e
    | .ok afterTitle =>
      let endTodayBossIdx := goIndex afterTitle endTodayBossIndexer + todayBossIdx
      if endTodayBossIdx = -1 then
        .error (.structural "boostable bosses: today boss end idx not found")
      else
        match goSlice line todayBossIdx endTodayBossIdx with
        | .error e => .error e
        | .ok nm =>
          let todayBossImgIdx := goIndex afterTitle todayBossImgIndexer + todayBossIdx
          if todayBossImgIdx = -1 then
            .error (.structural "boostable bosses: today boss img idx not found")
          else
            match goSliceFrom line todayBossImgIdx with
            | .error e => .error e
            | .ok afterImgStart =>
              let endTodayBossImgIdx :=
                goIndex afterImgStart endTodayBossImgIndexer + todayBossImgIdx
              if endTodayBossImgIdx = -1 then
                .error (.structural "boostable bosses: today boss end img idx not found")
              else
                match goSlice line todayBossImgIdx endTodayBossImgIdx with
                | .error e => .error e
                | .ok img => .ok { Name := nm, ImageURL := img, IsBoosted := true }

/-- Embedding of the `for` loop of `(*Parser).readBossesLine`. The `fuel`
argument strictly bounds the number of iterations: every completed iteration
replaces `line` by `line[endNameIdx-1:]` with `endNameIdx ≥ 16` (the name
index has the 17-character marker length added to a result that is at least
`-1`), so the line shrinks by at least 15 characters per iteration, and a
fuel of `line.length + 1` can never be exhausted before the loop exits. -/
def readBossesLoop (boosted : BoostableBoss) :
    Nat → Str → List BoostableBoss → Except GoErr (List BoostableBoss)
  | 0, _, _ => .error .sliceBounds
  | fuel + 1, line, bosses =>
    if goIndex line bossesImgIndexer = -1 then .ok bosses
    else
      let imgIdx := goIndex line bossesImgIndexer
      if imgIdx = -1 then
        .error (.structural "boostable bosses: img idx not found")
      else
        match goSliceFrom line imgIdx with
        | .error e => .error e
        | .ok afterImg =>
          let endImgIdx := goIndex afterImg endBossesImgIndexer + imgIdx
          if endImgIdx = -1 then
            .error (.structural "boostable bosses: end img idx not found")
          else
            match goSlice line imgIdx endImgIdx with
            | .error e => .error e
            | .ok img =>
              let nameIdx := goIndex line bossesNameIndexer + (bossesNameIndexer.length : Int)
              if nameIdx = -1 then
                .error (.structural "boostable bosses: name idx not found")
              else
                match goSliceFrom line nameIdx with
                | .error e => .error e
                | .ok afterName =>
                  let endNameIdx := goIndex afterName endBossesNameIndexer + nameIdx
                  if endNameIdx = -1 then
                    .error (.structural "boostable bosses: end name idx not found")
                  else
                    match goSlice line nameIdx endNameIdx with
                    | .error e => .error e
                    | .ok nm =>
                      match goSliceFrom line (endNameIdx - 1) with
                      | .error e => .error e
                      | .ok rest =>
                        readBossesLoop boosted fuel rest
                          (bosses ++ [{ Name := nm, ImageURL := img,
                                        IsBoosted := decide (nm = boosted.Name) }])

/-- Embedding of `(*Parser).readBossesLine`. -/
def readBossesLine (line : Str) (boosted : BoostableBoss) :
    Except GoErr (List BoostableBoss) :=
  readBossesLoop boosted (line.length + 1) line []

/-- Embedding of the line loop of `(*Parser).parse`: scan the lines in order
with the `started` flag; a listing line terminates the scan (`break`). When a
line is both the featured line and the listing line, the listing is read with
the freshly assigned `Boosted`, as in the source. -/
def parseLoop : List Str → Bool → BoostableBosses → Except GoErr BoostableBosses
  | [], _, parsed => .ok parsed
  | line :: rest, started, parsed =>
    let isTodaysLine := goContains line todayChecker && !started
    let isBossesLine := goContains line bossesChecker
    if !isTodaysLine && !isBossesLine then parseLoop rest started parsed
    else if isTodaysLine then
      match readTodaysLine line with
      | .error e => .error e
      | .ok boss =>
        if isBossesLine then
          match readBossesLine line boss with
          | .error e => .error e
          | .ok bosses => .ok { Boosted := boss, Bosses := bosses }
        else parseLoop rest true { parsed with Boosted := boss }
    else
      match readBossesLine line parsed.Boosted with
      | .error e => .error e
      | .ok bosses => .ok { parsed with Bosses := bosses }

/-- Embedding of `(*Parser).parse` up to (but not including) the final
`p.store(parsed)`: extract a `BoostableBosses` value from the page text. -/
def parseExtract (data : Str) : Except GoErr BoostableBosses :=
  match getLines data with
  | .error e => .error e
  | .ok lines => parseLoop lines false zeroBosses

/-- Embedding of `(*Parser).parse` including the final `p.store(parsed)`:
the second component is the cache after the call (`p.cachedBosses`), which is
replaced exactly when extraction reaches the final `store`. -/
def parse (data : Str) (cache : BoostableBosses) :
    Except GoErr Unit × BoostableBosses :=
  match parseExtract data with
  | .error e => (.error e, cache)
  | .ok parsed => (.ok (), parsed)

/-! ### Server-save window gate

Instants are embedded as seconds elapsed since 0000-01-01 00:00:00 UTC, the
reference date that Go's `time.Parse("15:04", ...)` produces (every omitted
field of the layout becomes its zero value, i.e. year 0, January 1).
`Time.After` and `Time.Before` compare whole instants, so they become strict
`<` on this encoding. -/

/-- The instant produced by `time.Parse("15:04", "07:58")`:
0000-01-01 07:58:00 UTC. -/
def tibiaServerSaveStartTime : Nat := 7 * 3600 + 58 * 60

/-- The instant produced by `time.Parse("15:04", "09:00")`:
0000-01-01 09:00:00 UTC. -/
def tibiaServerSaveEndTime : Nat := 9 * 3600

/-- Embedding of `(*Parser).isServerSaveTime`: `now.After(start) &&
now.Before(end)` on whole instants (date component included). -/
def isServerSaveTime (now : Nat) : Bool :=
  decide (tibiaServerSaveStartTime < now) && decide (now < tibiaServerSaveEndTime)

/-- The minute-of-day of an instant, discarding its date component. -/
def minuteOfDay (now : Nat) : Nat := (now / 60) % (24 * 60)

/-- Modelled from the spec (claim C1): the gate is claimed to compare only the
hour and minute of `now` against the 07:58 and 09:00 boundaries, ignoring the
date component entirely. -/
def claimedServerSaveGate (now : Nat) : Bool :=
  decide (7 * 60 + 58 < minuteOfDay now) && decide (minuteOfDay now < 9 * 60)

/-- The instant 2026-10-11 08:30:00 UTC: 740265 days (proleptic Gregorian,
counting the leap years of 0..2025) plus 8 h 30 min past midnight. -/
def nowOct2026 : Nat := 740265 * 86400 + 8 * 3600 + 30 * 60

/-! ### Transport fetcher -/

/-- Embedding of the HTTP response seen by `makeRequest`: the status code, the
host of the redirect target when `res.Location()` succeeds (`none` when the
302 carries no parseable `Location` header), and the body text. -/
structure HTTPResponse where
  status : Nat
  locationHost : Option String
  body : Str

/-- `parsers.MaintenanceHost`. -/
def maintenanceHost : String := "maintenance.tibia.com"

/-- Embedding of the response-classification part of `(*Parser).makeRequest`
(the `switch res.StatusCode` of boostablebosses.go): 200 returns the body,
403 wraps `ErrRateLimited`, 302 inspects the redirect location (failing with a
location error when it cannot be retrieved, returning `ErrMaintenance` for the
maintenance host, and falling through to the unknown-status branch otherwise),
and every other status wraps `ErrUnknownStatusCode` with the code. The context
check, request construction, rate-limiter call and transport errors that
precede the switch are modelled at the `fetch` level by the attempt oracle. -/
def makeRequest (res : HTTPResponse) : Except GoErr Str :=
  if res.status = 200 then .ok res.body
  else if res.status = 403 then .error .rateLimited
  else if res.status = 302 then
    match res.locationHost with
    | none => .error .locationFailed
    | some host =>
      if host = maintenanceHost then .error .maintenance
      else .error (.unknownStatus res.status)
  else .error (.unknownStatus res.status)

/-- Modelled from the amended claim C7 words: 200 is success, 403 is
rate-limited, a 302 whose Location host equals the maintenance host is
maintenance, a 302 with a Location host other than the maintenance host or any
other status is an unknown-status error carrying the status code — except
that a 302 whose Location cannot be retrieved yields a distinct
location-retrieval error. Stated independently of the source's switch and
fallthrough structure, to be compared with `makeRequest`. -/
def amendedClassification (res : HTTPResponse) : Except GoErr Str :=
  if res.status = 302 then
    match res.locationHost with
    | none => .error .locationFailed
    | some host =>
      if host = maintenanceHost then .error .maintenance
      else .error (.unknownStatus res.status)
  else if res.status = 200 then .ok res.body
  else if res.status = 403 then .error .rateLimited
  else .error (.unknownStatus res.status)

/-- Embedding of the `if opts.Retries == 0 { opts.Retries = 1 }` fixup. -/
def effRetries (r : Nat) : Nat := if r = 0 then 1 else r

/-- Embedding of the retry `for` loop of `(*Parser).fetch`: `budget` is the
number of iterations still allowed, `made` counts the attempts already made,
and `att n` is the outcome of the n-th call to `makeRequest`. The loop stops
at the first success and otherwise carries the error of the last attempt; a
zero initial budget returns the initial `("", nil)` of the loop variables. -/
def fetchLoopGo (att : Nat → Except GoErr Str) : Nat → Nat → Except GoErr Str × Nat
  | 0, made => (.ok [], made)
  | budget + 1, made =>
    match att made with
    | .ok d => (.ok d, made + 1)
    | .error e =>
      if budget = 0 then (.error e, made + 1) else fetchLoopGo att budget (made + 1)

/-- The retry loop of `(*Parser).fetch` after the retries fixup, paired with
the number of attempts made. -/
def fetchLoop (att : Nat → Except GoErr Str) (r : Nat) : Except GoErr Str × Nat :=
  fetchLoopGo att (effRetries r) 0

/-- Embedding of `(*Parser).fetch` over the attempt oracle: run the retry
loop; on success run `p.parse` on the returned page text (wrapping its error);
the second component is the cache after the call, the third the number of
`makeRequest` attempts. -/
def fetch (r : Nat) (att : Nat → Except GoErr Str) (cache : BoostableBosses) :
    Except GoErr Unit × BoostableBosses × Nat :=
  match fetchLoop att r with
  | (.error e, n) => (.error e, cache, n)
  | (.ok data, n) =>
    match parse data cache with
    | (.error e, cache2) => (.error (.parseWrap e), cache2, n)
    | (.ok _, cache2) => (.ok (), cache2, n)

/-- Embedding of `(*Parser).maybeUpdateCache`: when the server-save gate is
closed, report `false` without fetching; otherwise fetch and report `true` on
success. `serverSave` is the value of `p.isServerSaveTime()` at the call. -/
def maybeUpdateCache (serverSave : Bool) (r : Nat) (att : Nat → Except GoErr Str)
    (cache : BoostableBosses) : Except GoErr Bool × BoostableBosses × Nat :=
  if !serverSave then (.ok false, cache, 0)
  else
    match fetch r att cache with
    | (.error e, cache2, n) => (.error e, cache2, n)
    | (.ok _, cache2, n) => (.ok true, cache2, n)

/-- Embedding of the public `(*Parser).Parse`: `maybeUpdateCache`, then either
serve the (possibly refreshed) cache via `p.load()`, or force a fetch when
`DisallowCachedResponses` is set. Returns the result, the cache after the
call, and the total number of `makeRequest` attempts. -/
def Parse (serverSave disallow : Bool) (r : Nat) (att : Nat → Except GoErr Str)
    (cache : BoostableBosses) : Except GoErr BoostableBosses × BoostableBosses × Nat :=
  match maybeUpdateCache serverSave r att cache with
  | (.error e, cache2, n) => (.error e, cache2, n)
  | (.ok updated, cache2, n) =>
    if updated then (.ok cache2, cache2, n)
    else if disallow then
      match fetch r att cache2 with
      | (.error e, cache3, m) => (.error e, cache3, n + m)
      | (.ok _, cache3, m) => (.ok cache3, cache3, n + m)
    else (.ok cache2, cache2, n)

/-! ### JSON codec (the struct tags of `tibia.BoostableBoss` /
`tibia.BoostableBosses`) -/

/-- JSON values, at the abstract-syntax level produced and consumed by
`encoding/json` for these structs. -/
inductive Json where
  | str (s : Str)
  | bool (b : Bool)
  | arr (xs : List Json)
  | obj (fields : List (String × Json))

/-- Field lookup in a JSON object (the encoder below emits distinct keys, so
first-match lookup agrees with `encoding/json`). -/
def lookupField (fields : List (String × Json)) (key : String) : Option Json :=
  match fields with
  | [] => none
  | (k, v) :: rest => if k = key then some v else lookupField rest key

/-- Decode a string-typed field: an absent key keeps the zero value, a
non-string value is an unmarshal error, as in `encoding/json`. -/
def decodeStrField (fields : List (String × Json)) (key : String) : Option Str :=
  match lookupField fields key with
  | none => some []
  | some (.str s) => some s
  | some _ => none

/-- Decode a bool-typed field: an absent key keeps the zero value, a
non-bool value is an unmarshal error. -/
def decodeBoolField (fields : List (String × Json)) (key : String) : Option Bool :=
  match lookupField fields key with
  | none => some false
  | some (.bool b) => some b
  | some _ => none

/-- Marshalling of `tibia.BoostableBoss` under its struct tags
`name`, `image_url`, `featured`. -/
def encodeBoss (b : BoostableBoss) : Json :=
  .obj [("name", .str b.Name), ("image_url", .str b.ImageURL),
        ("featured", .bool b.IsBoosted)]

/-- Unmarshalling of `tibia.BoostableBoss`. -/
def decodeBoss : Json → Option BoostableBoss
  | .obj fields =>
    match decodeStrField fields "name" with
    | none => none
    | some nm =>
      match decodeStrField fields "image_url" with
      | none => none
      | some img =>
        match decodeBoolField fields "featured" with
        | none => none
        | some fl => some { Name := nm, ImageURL := img, IsBoosted := fl }
  | _ => none

/-- Marshalling of `tibia.BoostableBosses` under its struct tags
`boosted`, `boostable_boss_list`. -/
def encodeResult (r : BoostableBosses) : Json :=
  .obj [("boosted", encodeBoss r.Boosted),
        ("boostable_boss_list", .arr (r.Bosses.map encodeBoss))]

/-- Unmarshalling of a JSON list of bosses, element by element (the
element-wise traversal `encoding/json` performs on a slice). -/
def decodeList : List Json → Option (List BoostableBoss)
  | [] => some []
  | j :: rest =>
    match decodeBoss j with
    | none => none
    | some b =>
      match decodeList rest with
      | none => none
      | some bs => some (b :: bs)

/-- Unmarshalling of a JSON array of bosses. -/
def decodeBossList : Json → Option (List BoostableBoss)
  | .arr xs => decodeList xs
  | _ => none

/-- Unmarshalling of `tibia.BoostableBosses`. -/
def decodeResult : Json → Option BoostableBosses
  | .obj fields =>
    match lookupField fields "boosted" with
    | none => none
    | some jb =>
      match decodeBoss jb with
      | none => none
      | some boosted =>
        match lookupField fields "boostable_boss_list" with
        | none => none
        | some jl =>
          match decodeBossList jl with
          | none => none
          | some bosses => some { Boosted := boosted, Bosses := bosses }
  | _ => none

/-- The featured-entity invariant of the spec data model: at most one listed
entity is flagged, and every flagged entity is name-equal to the separately
tracked featured entity. -/
def featuredInvariant (r : BoostableBosses) : Prop :=
  r.Bosses.countP (fun b => b.IsBoosted) ≤ 1 ∧
    ∀ b ∈ r.Bosses, b.IsBoosted = true → b.Name = r.Boosted.Name

/-! ### Concrete inputs used by counterexamples and witnesses -/

/-- A page whose main-content marker occurs at offset 1 and whose footer
marker is absent. -/
def cexMissingFooter : Str := 'x' :: startIndexer

/-- One listed-boss cell: image URL, closing quote, and the name `A`. -/
def cexEntry : Str :=
  bossesImgIndexer ++ "a.gif\" border=0 /> <div>A</div>".toList

/-- A listing line holding the same boss cell twice. -/
def cexBossesLine : Str := bossesChecker ++ cexEntry ++ cexEntry

/-- A featured boss named `A`. -/
def cexBoosted : BoostableBoss :=
  { Name := ['A'], ImageURL := [], IsBoosted := true }

/-- The boss value extracted from each cell of `cexBossesLine`. -/
def bossA : BoostableBoss :=
  { Name := ['A'], ImageURL := bossesImgIndexer ++ "a.gif".toList,
    IsBoosted := true }

/-- A well-formed featured line for the boss `A`. -/
def cexTodayLine : Str :=
  todayBossIndexer ++ "A\" src=\"".toList ++ todayBossImgIndexer ++
    "a.gif\" onClick=\"".toList

/-- The boss value extracted from `cexTodayLine`. -/
def cexTodayBoss : BoostableBoss :=
  { Name := ['A'], ImageURL := todayBossImgIndexer ++ "a.gif".toList,
    IsBoosted := true }

/-- A page with both region markers but no featured line and no listing
line. -/
def cexNoTodayData : Str := startIndexer ++ '\n' :: endIndexer

/-- An attempt oracle whose every attempt is a 302 redirect to the
maintenance host. -/
def attMaintenance : Nat → Except GoErr Str := fun _ =>
  makeRequest { status := 302, locationHost := some maintenanceHost, body := [] }

/-- An attempt oracle whose every attempt fails at the transport level. -/
def attTransport : Nat → Except GoErr Str := fun _ => .error .transport

/-- A page body returned by a successful stub attempt. -/
def okPage : Str := "page".toList

/-- An attempt oracle failing twice with a transport error, then
succeeding. -/
def attThirdTimeLucky : Nat → Except GoErr Str := fun i =>
  if i < 2 then .error .transport else .ok okPage

/-- A 302 response carrying no parseable Location header. -/
def respNoLocation : HTTPResponse :=
  { status := 302, locationHost := none, body := [] }

/-- A sample non-zero cache snapshot. -/
def sampleCache : BoostableBosses := { Boosted := cexTodayBoss, Bosses := [bossA] }

/-- A sample result satisfying the featured-entity invariant. -/
def sampleResult : BoostableBosses := { Boosted := cexBoosted, Bosses := [bossA] }

/-! ### Helper lemmas -/

/-- The retries fixup yields a positive attempt budget. -/
theorem one_le_effRetries (r : Nat) : 1 ≤ effRetries r := by
  unfold effRetries; split <;> omega

/-- One unfolding step of the retry loop on a successful attempt. -/
theorem fetchLoopGo_succ_ok (att : Nat → Except GoErr Str) (b made : Nat) (d : Str)
    (h : att made = .ok d) : fetchLoopGo att (b + 1) made = (.ok d, made + 1) := by
  rw [fetchLoopGo, h]

/-- One unfolding step of the retry loop on a failed attempt. -/
theorem fetchLoopGo_succ_err (att : Nat → Except GoErr Str) (b made : Nat) (e : GoErr)
    (h : att made = .error e) :
    fetchLoopGo att (b + 1) made =
      if b = 0 then (.error e, made + 1) else fetchLoopGo att b (made + 1) := by
  rw [fetchLoopGo, h]

/-- The retry loop makes at most `made + budget` attempts. -/
theorem fetchLoopGo_count_le (att : Nat → Except GoErr Str) :
    ∀ k made, (fetchLoopGo att k made).2 ≤ made + k := by
  intro k
  induction k with
  | zero => intro made; simp [fetchLoopGo]
  | succ b ih =>
    intro made
    rw [fetchLoopGo]
    cases h : att made with
    | ok d => simp
    | error e =>
      by_cases hb : b = 0
      · subst hb; simp
      · simp only [if_neg hb]
        have := ih (made + 1)
        omega

/-- A budget of one yields exactly one attempt. -/
theorem fetchLoopGo_one (att : Nat → Except GoErr Str) (made : Nat) :
    (fetchLoopGo att 1 made).2 = made + 1 := by
  rw [fetchLoopGo]
  cases h : att made <;> simp

/-- The retry loop stops at the first successful attempt and returns its
value. -/
theorem fetchLoopGo_first_success (att : Nat → Except GoErr Str) :
    ∀ i k made d, i < k → (∀ j, j < i → ∃ e, att (made + j) = .error e) →
      att (made + i) = .ok d →
      fetchLoopGo att k made = (.ok d, made + i + 1) := by
  intro i
  induction i with
  | zero =>
    intro k made d hk hfail hok
    cases k with
    | zero => omega
    | succ b =>
      have hok' : att made = .ok d := by simpa using hok
      rw [fetchLoopGo, hok']
  | succ i ih =>
    intro k made d hk hfail hok
    cases k with
    | zero => omega
    | succ b =>
      obtain ⟨e, he⟩ := hfail 0 (by omega)
      have he' : att made = .error e := by simpa using he
      have hb : b ≠ 0 := by
        intro hb0
        omega
      rw [fetchLoopGo_succ_err att b made e he', if_neg hb]
      have hrec := ih b (made + 1) d (by omega)
        (fun j hj => by
          obtain ⟨e', he''⟩ := hfail (j + 1) (by omega)
          exact ⟨e', by rw [show made + 1 + j = made + (j + 1) by omega]; exact he''⟩)
        (by rw [show made + 1 + i = made + (i + 1) by omega]; exact hok)
      rw [hrec, Prod.mk.injEq]
      exact ⟨rfl, by omega⟩

/-- When every allowed attempt fails, the retry loop returns the error of the
last attempt after exhausting the budget. -/
theorem fetchLoopGo_all_fail (att : Nat → Except GoErr Str) :
    ∀ k made, 1 ≤ k → (∀ i, i < k → ∃ e, att (made + i) = .error e) →
      fetchLoopGo att k made = (att (made + k - 1), made + k) := by
  intro k
  induction k with
  | zero => intro made h; omega
  | succ b ih =>
    intro made _ hfail
    obtain ⟨e, he⟩ := hfail 0 (by omega)
    have he' : att made = .error e := by simpa using he
    by_cases hb : b = 0
    · subst hb
      rw [fetchLoopGo_succ_err att 0 made e he', if_pos rfl]
      simp [he']
    · rw [fetchLoopGo_succ_err att b made e he', if_neg hb]
      have hrec := ih (made + 1) (by omega)
        (fun i hi => by
          obtain ⟨e', he''⟩ := hfail (i + 1) (by omega)
          exact ⟨e', by rw [show made + 1 + i = made + (i + 1) by omega]; exact he''⟩)
      rw [hrec, Prod.mk.injEq]
      constructor
      · congr 1
        omega
      · omega

/-- An erroring `parse` leaves the cache untouched (the final `store` is never
reached). -/
theorem parse_error_cache (data : Str) (cache : BoostableBosses) (e : GoErr)
    (c2 : BoostableBosses) (h : parse data cache = (.error e, c2)) : c2 = cache := by
  rw [parse] at h
  split at h
  · cases h; rfl
  · cases h

/-- An erroring `fetch` leaves the cache untouched. -/
theorem fetch_error_cache (r : Nat) (att : Nat → Except GoErr Str)
    (cache : BoostableBosses) (e : GoErr) (c2 : BoostableBosses) (n : Nat)
    (h : fetch r att cache = (.error e, c2, n)) : c2 = cache := by
  rw [fetch] at h
  split at h
  · cases h; rfl
  · split at h
    · rename_i heq
      cases h
      exact parse_error_cache _ _ _ _ heq
    · cases h

/-- An erroring `maybeUpdateCache` leaves the cache untouched. -/
theorem maybeUpdateCache_error_cache (ss : Bool) (r : Nat)
    (att : Nat → Except GoErr Str) (cache : BoostableBosses) (e : GoErr)
    (c2 : BoostableBosses) (n : Nat)
    (h : maybeUpdateCache ss r att cache = (.error e, c2, n)) : c2 = cache := by
  rw [maybeUpdateCache] at h
  split at h
  · cases h
  · split at h
    · rename_i heq
      cases h
      exact fetch_error_cache _ _ _ _ _ _ heq
    · cases h

/-- A `maybeUpdateCache` that reports no update leaves the cache untouched. -/
theorem maybeUpdateCache_ok_false_cache (ss : Bool) (r : Nat)
    (att : Nat → Except GoErr Str) (cache : BoostableBosses)
    (c2 : BoostableBosses) (n : Nat)
    (h : maybeUpdateCache ss r att cache = (.ok false, c2, n)) : c2 = cache := by
  rw [maybeUpdateCache] at h
  split at h
  · cases h; rfl
  · split at h
    · cases h
    · cases h

/-- Every boss value successfully returned by `readTodaysLine` carries
`IsBoosted = true` (the flag is set before any field is extracted). -/
theorem readTodaysLine_isBoosted (line : Str) (b : BoostableBoss)
    (h : readTodaysLine line = .ok b) : b.IsBoosted = true := by
  simp only [readTodaysLine] at h
  split at h
  · cases h
  · split at h
    · cases h
    · split at h
      · cases h
      · split at h
        · cases h
        · split at h
          · cases h
          · split at h
            · cases h
            · split at h
              · cases h
              · split at h
                · cases h
                · cases h; rfl

/-- Loop invariant of `readBossesLoop`: in a successful result, every boss is
flagged exactly when its name equals the featured boss name. -/
theorem readBossesLoop_flag (boosted : BoostableBoss) :
    ∀ fuel line acc res, readBossesLoop boosted fuel line acc = .ok res →
      (∀ b ∈ acc, (b.IsBoosted = true ↔ b.Name = boosted.Name)) →
      ∀ b ∈ res, (b.IsBoosted = true ↔ b.Name = boosted.Name) := by
  intro fuel
  induction fuel with
  | zero => intro line acc res h hacc; simp [readBossesLoop] at h
  | succ fuel ih =>
    intro line acc res h hacc
    simp only [readBossesLoop] at h
    split at h
    · cases h
      exact hacc
    · split at h
      · cases h
      · split at h
        · cases h
        · split at h
          · cases h
          · split at h
            · cases h
            · split at h
              · cases h
              · split at h
                · cases h
                · split at h
                  · cases h
                  · split at h
                    · cases h
                    · refine ih _ _ _ h ?_
                      intro b hb
                      rcases List.mem_append.mp hb with hb | hb
                      · exact hacc b hb
                      · rcases List.mem_singleton.mp hb with rfl
                        simp

/-- Line-loop invariant of `parse`: a successful extraction either assigned
`Boosted` from `readTodaysLine` (hence flagged) or left it at the zero
value. -/
theorem parseLoop_boosted :
    ∀ lines started parsed res, parseLoop lines started parsed = .ok res →
      (parsed.Boosted.IsBoosted = true ∨ parsed.Boosted = zeroBoss) →
      (res.Boosted.IsBoosted = true ∨ res.Boosted = zeroBoss) := by
  intro lines
  induction lines with
  | nil =>
    intro s p res h hp
    cases h
    exact hp
  | cons line rest ih =>
    intro s p res h hp
    simp only [parseLoop] at h
    split at h
    · exact ih _ _ _ h hp
    · split at h
      · split at h
        · cases h
        · rename_i boss hboss
          split at h
          · split at h
            · cases h
            · cases h
              exact Or.inl (readTodaysLine_isBoosted _ _ hboss)
          · exact ih _ _ _ h (Or.inl (readTodaysLine_isBoosted _ _ hboss))
      · split at h
        · cases h
        · cases h
          exact hp

/-- Decoding inverts encoding on a single boss. -/
theorem decodeBoss_encode (b : BoostableBoss) : decodeBoss (encodeBoss b) = some b := rfl

/-- Decoding inverts encoding on a list of bosses. -/
theorem decodeList_encode (l : List BoostableBoss) :
    decodeList (l.map encodeBoss) = some l := by
  induction l with
  | nil => rfl
  | cons x xs ih => simp [decodeList, decodeBoss_encode, ih]

/-- Field lookup in the two-field result object: first key. -/
theorem lookup2_boosted (j1 j2 : Json) :
    lookupField [("boosted", j1), ("boostable_boss_list", j2)] "boosted" = some j1 := by
  rw [lookupField, if_pos rfl]

/-- Field lookup in the two-field result object: second key. -/
theorem lookup2_list (j1 j2 : Json) :
    lookupField [("boosted", j1), ("boostable_boss_list", j2)]
      "boostable_boss_list" = some j2 := by
  rw [lookupField, if_neg (by decide), lookupField, if_pos rfl]

/-- Decoding inverts encoding on a whole result. -/
theorem decodeResult_encode (r : BoostableBosses) :
    decodeResult (encodeResult r) = some r := by
  rw [encodeResult, decodeResult, lookup2_boosted]
  simp only [decodeBoss_encode]
  rw [lookup2_list]
  simp only [decodeBossList, decodeList_encode]

/-! ### Claim theorems -/

/-- C1: the claim says `isServerSaveTime` is true iff the time-of-day of `now`
lies strictly between 07:58 and 09:00 UTC, ignoring the date. The code instead
compares whole instants against the year-0 boundary instants produced by
`time.Parse`, so the gate is false for every instant at or after
0000-01-01 09:00 UTC — in particular at 2026-10-11 08:30:00 UTC, where the
claimed hour-and-minute comparison is true. -/
theorem C1_isServerSaveTime_never_fires :
    (∀ now, tibiaServerSaveEndTime ≤ now → isServerSaveTime now = false) ∧
    claimedServerSaveGate nowOct2026 = true ∧
    isServerSaveTime nowOct2026 = false := by
  refine ⟨?_, by decide, by decide⟩
  intro now h
  have h2 : ¬(now < tibiaServerSaveEndTime) := by omega
  simp [isServerSaveTime, h2]

/-- C1 witness: the gate is false at the concrete modern instant
2026-10-11 08:30:00 UTC. -/
theorem C1_witness : isServerSaveTime nowOct2026 = false :=
  C1_isServerSaveTime_never_fires.1 nowOct2026 (by decide)

/-- C2 counterexample: with a retry budget of 3 and every attempt a 302
redirect to the maintenance host, the retry loop of `fetch` makes 3 attempts
and not the single attempt the claim prescribes. -/
theorem C2_maintenance_is_retried :
    fetchLoop attMaintenance 3 = (.error .maintenance, 3) ∧
    (fetchLoop attMaintenance 3).2 ≠ 1 := ⟨by decide, by decide⟩

/-- C2 amended: a 302 to the maintenance host yields `ErrMaintenance`, but it
is retried like any other error: when every attempt is a maintenance error,
the retry loop makes `max(R,1)` attempts and returns `ErrMaintenance` after
the last one. -/
theorem C2_amended_maintenance_retried (r : Nat) (att : Nat → Except GoErr Str)
    (h : ∀ i, att i = .error .maintenance) :
    fetchLoop att r = (.error .maintenance, effRetries r) := by
  have hall := fetchLoopGo_all_fail att (effRetries r) 0 (one_le_effRetries r)
    (fun i _ => ⟨.maintenance, by simpa using h i⟩)
  rw [fetchLoop, hall]
  simp [h]

/-- C2 witness: the amended statement at a concrete budget of 3. -/
theorem C2_witness : fetchLoop attMaintenance 3 = (.error .maintenance, effRetries 3) :=
  C2_amended_maintenance_retried 3 attMaintenance (fun _ => rfl)

/-- C3: on a page whose main-content marker sits at offset 1 and whose footer
marker is absent, `getLines` reaches the slice-bounds run-time panic (Go:
`data[startIdx:endIdx]` with `endIdx = startIdx - 1`), not the structural
"end of content not found" error the claim prescribes: the `== -1` check is
dead because `startIdx` was added to the index before the comparison. -/
theorem C3_getLines_panics_on_missing_footer :
    getLines cexMissingFooter = .error .sliceBounds ∧
    GoErr.sliceBounds ≠
      GoErr.structural "boostable bosses: end of content not found" :=
  ⟨by decide, by decide⟩

/-- C4: whenever `Parse` returns an error — a fetch failure or an extraction
failure at any point — the cache after the call is exactly the cache before
it; the `store` step runs only after extraction fully succeeds. -/
theorem C4_error_preserves_cache (ss dis : Bool) (r : Nat)
    (att : Nat → Except GoErr Str) (cache : BoostableBosses) (e : GoErr)
    (c2 : BoostableBosses) (n : Nat)
    (h : Parse ss dis r att cache = (.error e, c2, n)) : c2 = cache := by
  rw [Parse] at h
  split at h
  · rename_i heq
    cases h
    exact maybeUpdateCache_error_cache _ _ _ _ _ _ _ heq
  · rename_i updated cmid n1 heq
    split at h
    · cases h
    · rename_i hupd
      have hupd' : updated = false := by
        cases updated
        · rfl
        · exact absurd rfl hupd
      subst hupd'
      have hcmid : cmid = cache :=
        maybeUpdateCache_ok_false_cache _ _ _ _ _ _ heq
      split at h
      · split at h
        · rename_i heq2
          cases h
          rw [fetch_error_cache _ _ _ _ _ _ heq2, hcmid]
        · cases h
      · cases h

/-- C4 witness: a concrete erroring call (transport failure with budget 1
during the refresh window) leaves the pre-populated cache untouched. -/
theorem C4_witness :
    Parse true false 1 attTransport sampleCache = (.error .transport, sampleCache, 1) ∧
    sampleCache = sampleCache :=
  ⟨by decide, C4_error_preserves_cache true false 1 attTransport sampleCache
    .transport sampleCache 1 (by decide)⟩

/-- C5: the retry loop of `fetch` makes at most `max(R,1)` attempts; a budget
of 0 or 1 means exactly one attempt; it stops at the first successful attempt
and returns that success; and on exhaustion it returns the error of the last
attempt. -/
theorem C5_fetch_retry_semantics (att : Nat → Except GoErr Str) (r : Nat) :
    (fetchLoop att r).2 ≤ effRetries r ∧
    ((r = 0 ∨ r = 1) → (fetchLoop att r).2 = 1) ∧
    (∀ i d, i < effRetries r → (∀ j, j < i → ∃ e, att j = .error e) →
      att i = .ok d → fetchLoop att r = (.ok d, i + 1)) ∧
    ((∀ i, i < effRetries r → ∃ e, att i = .error e) →
      fetchLoop att r = (att (effRetries r - 1), effRetries r)) := by
  refine ⟨?_, ?_, ?_, ?_⟩
  · simpa using fetchLoopGo_count_le att (effRetries r) 0
  · intro hr
    have h1 : effRetries r = 1 := by
      rcases hr with h | h <;> simp [effRetries, h]
    rw [fetchLoop, h1]
    simpa using fetchLoopGo_one att 0
  · intro i d hi hfail hok
    have hs := fetchLoopGo_first_success att i (effRetries r) 0 d hi
      (fun j hj => by simpa using hfail j hj) (by simpa using hok)
    rw [fetchLoop]
    simpa using hs
  · intro hfail
    have hs := fetchLoopGo_all_fail att (effRetries r) 0 (one_le_effRetries r)
      (fun i hi => by simpa using hfail i hi)
    rw [fetchLoop]
    simpa using hs

/-- C5 witness: with retries 3 and a stub failing twice with a transport error
then succeeding, the loop returns the success after exactly 3 attempts. -/
theorem C5_witness : fetchLoop attThirdTimeLucky 3 = (.ok okPage, 3) :=
  (C5_fetch_retry_semantics attThirdTimeLucky 3).2.2.1 2 okPage (by decide)
    (fun j hj => ⟨.transport, by interval_cases j <;> rfl⟩) rfl

/-- C6: when the refresh window is not due and `DisallowCachedResponses` is
false, `Parse` returns the current cache snapshot with a nil error and makes
zero network attempts. -/
theorem C6_cached_response_no_fetch (r : Nat) (att : Nat → Except GoErr Str)
    (cache : BoostableBosses) :
    Parse false false r att cache = (.ok cache, cache, 0) := rfl

/-- C7 counterexample: a 302 response with no retrievable Location yields the
distinct location-retrieval error, not the unknown-status error carrying 302
that the claim prescribes for "any other 302". -/
theorem C7_no_location_counterexample :
    makeRequest respNoLocation = .error .locationFailed ∧
    GoErr.locationFailed ≠ GoErr.unknownStatus 302 := ⟨by decide, by decide⟩

/-- C7 amended: `makeRequest` classifies every response as the claim says —
200 success with the full body, 403 rate-limited, 302-to-maintenance
maintenance, any other 302 with a retrievable Location and any other status
unknown-status with the code — except that a 302 whose Location cannot be
retrieved yields the location-retrieval error. -/
theorem C7_amended_classification (res : HTTPResponse) :
    makeRequest res = amendedClassification res := by
  rcases res with ⟨s, loc, b⟩
  by_cases h2 : s = 200
  · subst h2; rfl
  · by_cases h4 : s = 403
    · subst h4; rfl
    · by_cases h3 : s = 302
      · subst h3
        rcases loc with _ | host <;> rfl
      · simp [makeRequest, amendedClassification, h2, h3, h4]

set_option maxRecDepth 100000 in
/-- C8 counterexample: a listing line holding two cells with the same name as
the featured boss yields a result with two flagged entities, violating the
at-most-one-featured invariant. -/
theorem C8_duplicate_names_two_featured :
    readBossesLine cexBossesLine cexBoosted = .ok [bossA, bossA] ∧
    ¬featuredInvariant { Boosted := cexBoosted, Bosses := [bossA, bossA] } := by
  constructor
  · decide
  · unfold featuredInvariant
    decide

/-- C8 amended: in every successful `readBossesLine` result, an entity is
flagged featured exactly when its name equals the featured boss name — so
every flagged entity matches the featured name, but duplicate occurrences of
the featured name each get the flag. -/
theorem C8_amended_flag_iff_name (line : Str) (boosted : BoostableBoss)
    (res : List BoostableBoss) (h : readBossesLine line boosted = .ok res) :
    ∀ b ∈ res, (b.IsBoosted = true ↔ b.Name = boosted.Name) :=
  readBossesLoop_flag boosted (line.length + 1) line [] res h (by simp)

set_option maxRecDepth 100000 in
/-- C8 witness: the amended statement at the concrete duplicate-name line. -/
theorem C8_witness : bossA.IsBoosted = true ↔ bossA.Name = cexBoosted.Name :=
  C8_amended_flag_iff_name cexBossesLine cexBoosted [bossA, bossA] (by decide)
    bossA (by simp)

/-- C9: serializing a result to the public JSON shape and deserializing it
back yields the same value — every field of the featured entity and of every
listed entity is preserved — and therefore the featured-entity invariant is
preserved by the round trip. -/
theorem C9_json_roundtrip (r : BoostableBosses) :
    decodeResult (encodeResult r) = some r ∧
    (featuredInvariant r → ∀ r2, decodeResult (encodeResult r) = some r2 →
      featuredInvariant r2) := by
  refine ⟨decodeResult_encode r, fun hinv r2 h2 => ?_⟩
  rw [decodeResult_encode r] at h2
  cases h2
  exact hinv

/-- C9 witness: the round trip at a concrete invariant-satisfying result. -/
theorem C9_witness : featuredInvariant sampleResult :=
  (C9_json_roundtrip sampleResult).2 (by unfold featuredInvariant; decide)
    sampleResult (C9_json_roundtrip sampleResult).1

/-- C10 counterexample: a page with both region markers but no featured line
extracts (and hence stores) the zero-value result, whose `Boosted` field has
`isFeatured = false` — the flag is not unconditionally true in every stored
result. -/
theorem C10_zero_boosted_stored :
    parse cexNoTodayData sampleCache = (.ok (), zeroBosses) ∧
    zeroBosses.Boosted.IsBoosted = false :=
  ⟨by decide, rfl⟩

/-- C10 amended: every boss value `readTodaysLine` returns successfully has
`isFeatured = true` (the flag is initialized before any field is extracted),
and consequently every extracted result either carries a flagged `Boosted` or
left `Boosted` at the zero value because no featured line was found. -/
theorem C10_amended_boosted_flag :
    (∀ line b, readTodaysLine line = .ok b → b.IsBoosted = true) ∧
    (∀ data res, parseExtract data = .ok res →
      res.Boosted.IsBoosted = true ∨ res.Boosted = zeroBoss) := by
  constructor
  · exact readTodaysLine_isBoosted
  · intro data res h
    rw [parseExtract] at h
    split at h
    · cases h
    · exact parseLoop_boosted _ _ _ _ h (Or.inr rfl)

/-- C10 witness: the amended statement at a concrete well-formed featured
line. -/
theorem C10_witness : cexTodayBoss.IsBoosted = true :=
  C10_amended_boosted_flag.1 cexTodayLine cexTodayBoss (by decide)

end TibiaCrawler
